import Mathlib

/-!
Shallow embedding of the pickpocket-rust synchronization engine.

The definitions mirror `src/articles/api.rs` and `src/articles/library.rs`:
JSON values are modelled by an inductive `JValue`, the `serde_json::Map` /
`HashMap` maps by association lists with first-occurrence semantics, the
network by an oracle `pages : Nat → JValue` giving each offset's parsed
response (`JValue.null` models a transport, status or body-parse failure,
exactly the value `fetch_page` returns in those cases).  Network-performing
functions are instrumented to also return the list of requests they issue.
-/

/-- Association-list lookup, mirroring `HashMap::get` / `Map::get`:
the value stored under `key`, if any. -/
def lookupA {β : Type} : List (String × β) → String → Option β
  | [], _ => none
  | (k, v) :: rest, key => if k = key then some v else lookupA rest key

/-- Association-list insert, mirroring `HashMap::insert` / `Map::insert`:
overwrites the value of an existing key, otherwise appends the new entry. -/
def insertA {β : Type} : List (String × β) → String → β → List (String × β)
  | [], key, v => [(key, v)]
  | (k, w) :: rest, key, v =>
      if k = key then (k, v) :: rest else (k, w) :: insertA rest key v

/-- Association-list removal, mirroring `HashMap::remove`: drops the (unique)
entry stored under `key`. -/
def removeA {β : Type} : List (String × β) → String → List (String × β)
  | [], _ => []
  | (k, v) :: rest, key => if k = key then rest else (k, v) :: removeA rest key

/-- The keys of an association list, mirroring `HashMap::keys`. -/
def keysA {β : Type} (l : List (String × β)) : List String :=
  l.map Prod.fst

/-- A JSON value as `serde_json::Value`: objects are association lists. -/
inductive JValue : Type
  | null : JValue
  | bool (b : Bool) : JValue
  | num (n : Int) : JValue
  | str (s : String) : JValue
  | arr (elems : List JValue) : JValue
  | obj (fields : List (String × JValue)) : JValue

/-- Rust's `Value::is_null`. -/
def isNull : JValue → Bool
  | JValue.null => true
  | _ => false

/-- Rust's `value["key"]` indexing: the field of an object, `Null` when the
key is absent or the value is not an object. -/
def jget : JValue → String → JValue
  | JValue.obj fields, key =>
      match lookupA fields key with
      | some v => v
      | none => JValue.null
  | _, _ => JValue.null

/-- Rust's `Value::as_object`: the field list of an object, `None` otherwise. -/
def asObject : JValue → Option (List (String × JValue))
  | JValue.obj fields => some fields
  | _ => none

/-- Rust's `Value::as_str`: the contents of a string value, `None` otherwise. -/
def asStr : JValue → Option String
  | JValue.str s => some s
  | _ => none

/-- `PAGE_SIZE` of `api.rs`. -/
def PAGE_SIZE : Nat := 30

/-- `MAX_CONCURRENT_REQUESTS` of `api.rs`. -/
def MAX_CONCURRENT_REQUESTS : Nat := 5

/-- The offsets requested by one pass of `retrieve_async`'s inner
`for _ in 0..MAX_CONCURRENT_REQUESTS` loop when it starts at `offset` with
`k` iterations left: each iteration pushes a request at the current offset,
advances the offset by `PAGE_SIZE`, and breaks once the advanced offset
exceeds `PAGE_SIZE * 50`. -/
def batchOffsets : Nat → Nat → List Nat
  | 0, _ => []
  | k + 1, offset =>
      if offset + PAGE_SIZE > PAGE_SIZE * 50 then [offset]
      else offset :: batchOffsets k (offset + PAGE_SIZE)

/-- The value of the `offset` counter after that same inner loop. -/
def batchEnd : Nat → Nat → Nat
  | 0, offset => offset
  | k + 1, offset =>
      if offset + PAGE_SIZE > PAGE_SIZE * 50 then offset + PAGE_SIZE
      else batchEnd k (offset + PAGE_SIZE)

/-- The `for page_result in batch_results` loop of `retrieve_async`: inserts
each page's `list` entries into the accumulated map, and reports `true`
(`empty_page_found`) as soon as a page's `list` is an empty object or is
missing/not an object, skipping the batch's remaining pages. -/
def mergeBatch : List (String × JValue) → List JValue →
    List (String × JValue) × Bool
  | all_items, [] => (all_items, false)
  | all_items, page :: rest =>
      match asObject (jget page "list") with
      | some items =>
          if items.isEmpty then (all_items, true)
          else
            mergeBatch (items.foldl (fun m p => insertA m p.1 p.2) all_items) rest
      | none => (all_items, true)

/-- The outer `loop { ... }` of `retrieve_async`: build one batch of page
requests, merge its results, and stop when the batch contained an
empty/unparseable page or the offset counter has passed `PAGE_SIZE * 50`.
Instrumented to return the list of requested offsets beside the merged map. -/
def paginationLoop (pages : Nat → JValue) (offset : Nat)
    (all_items : List (String × JValue)) :
    List (String × JValue) × List Nat :=
  let offs := batchOffsets MAX_CONCURRENT_REQUESTS offset
  let merged := mergeBatch all_items (offs.map pages)
  if merged.2 then (merged.1, offs)
  else if batchEnd MAX_CONCURRENT_REQUESTS offset > PAGE_SIZE * 50 then
    (merged.1, offs)
  else
    let next := paginationLoop pages (batchEnd MAX_CONCURRENT_REQUESTS offset) merged.1
    (next.1, offs ++ next.2)
termination_by PAGE_SIZE * 50 + 1 - offset
decreasing_by
  simp only [MAX_CONCURRENT_REQUESTS, PAGE_SIZE, batchEnd] at *
  repeat' split at *
  all_goals omega

/-- `API::retrieve_async` of `api.rs`: fetch the first page; abort on a null
(failed) response or a missing `list`; stop after the first page when it holds
fewer than `PAGE_SIZE` items; otherwise run the batched pagination loop and
wrap the merged map as `{"status": 1, "list": ...}`.  Instrumented to return
the list of requested offsets beside the response value. -/
def retrieveAsync (pages : Nat → JValue) : JValue × List Nat :=
  let first_page := pages 0
  if isNull first_page then (JValue.null, [0])
  else
    match asObject (jget first_page "list") with
    | none => (first_page, [0])
    | some all_items =>
        if all_items.length = 0 ∨ all_items.length < PAGE_SIZE then
          (first_page, [0])
        else
          let r := paginationLoop pages PAGE_SIZE all_items
          (JValue.obj [("status", JValue.num 1), ("list", JValue.obj r.1)],
           0 :: r.2)

/-- Modelled from the spec: `article.rs` is not among the staged sources.
Spec §3 gives Article as `{ id: string, url: string, title: string }`,
matching every use of the type in `library.rs`. -/
structure Article : Type where
  id : String
  url : String
  title : String
deriving Repr, DecidableEq

/-- `ACTION_ARCHIVE` of `api.rs`. -/
def ACTION_ARCHIVE : String := "archive"

/-- The `actions` JSON array `API::archive_async` builds: one
`{action, item_id}` object per input article. -/
def archiveActions (articles : List Article) : List JValue :=
  articles.map fun article =>
    JValue.obj [("action", JValue.str ACTION_ARCHIVE),
                ("item_id", JValue.str article.id)]

/-- The remote requests `API::archive_async` issues, one list entry per POST,
each holding that POST's actions array: the function serializes the whole
input into a single `actions` parameter and sends exactly one request,
whatever the input size. -/
def archiveRequests (articles : List Article) : List (List JValue) :=
  [archiveActions articles]

/-- Modelled from the spec: `inventory.rs` is not among the staged sources.
Spec §3 gives Inventory as a mapping from article id to Article, and
`library.rs` reads and writes it through an `articles` map field; the map is
an association list here. -/
structure Inventory : Type where
  articles : List (String × Article)
deriving Repr, DecidableEq

/-- The `Library` aggregate of `library.rs`. -/
structure Library : Type where
  read : Inventory
  unread : Inventory
deriving Repr, DecidableEq

/-- The article transformation inside `Library::renew`: build an `Article`
from one fetched payload, with the title taken from a non-empty
`resolved_title`, else from `given_title`, else the literal `"Untitled"`,
and the url from `given_url`, defaulting to the empty string. -/
def transformArticle (id : String) (data : JValue) : Article :=
  let resolved_title := asStr (jget data "resolved_title")
  let given_title := asStr (jget data "given_title")
  let title :=
    match resolved_title with
    | some t => if t ≠ "" then t else given_title.getD "Untitled"
    | none => given_title.getD "Untitled"
  { id := id, url := (asStr (jget data "given_url")).getD "", title := title }

/-- The outcome of `api.retrieve(30, 0)` followed by `serde_json::from_str`
inside `Library::renew`: the retrieve call fails, or its `Ok` string is not
valid JSON, or it parses to a JSON value. -/
inductive FetchOutcome : Type
  | err (msg : String) : FetchOutcome
  | badJson : FetchOutcome
  | parsed (v : JValue) : FetchOutcome

/-- What one run of `Library::renew` leaves behind: the persisted library
(the old one when the cycle aborts), whether `write_inventory` ran, and
whether the delete pass was submitted to the remote service. -/
structure RenewResult : Type where
  library : Library
  wrote : Bool
  deleteIssued : Bool
deriving Repr, DecidableEq

/-- `Library::renew` of `library.rs`, with the loaded library and the fetch
outcome as inputs: submit the read bucket for deletion when non-empty; abort
(without writing) when the fetch errs or its response string does not parse;
otherwise read the response's `list` as a map (falling back to an empty map
when it is not one), transform each payload, and persist a brand-new library
with an empty read bucket. -/
def renew (library : Library) (fetch : FetchOutcome) : RenewResult :=
  let deleteIssued := !library.read.articles.isEmpty
  match fetch with
  | FetchOutcome.err _ => ⟨library, false, deleteIssued⟩
  | FetchOutcome.badJson => ⟨library, false, deleteIssued⟩
  | FetchOutcome.parsed api_response =>
      let api_list := jget api_response "list"
      let api_articles :=
        match asObject api_list with
        | some articles => articles
        | none => []
      let new_inventory :=
        api_articles.map fun p => (p.1, transformArticle p.1 p.2)
      ⟨{ read := ⟨[]⟩, unread := ⟨new_inventory⟩ }, true, deleteIssued⟩

/-- `Library::random_unread_article`, with the random draw supplied as a
number `sel`: collect the unread bucket's keys, pick the one at index
`sel % length` (`choose` returns `None` exactly on an empty slice), and
return the article stored under it. -/
def random_unread_article (sel : Nat) (library : Library) : Option Article :=
  let article_ids := keysA library.unread.articles
  if h : article_ids.length = 0 then none
  else
    let id := article_ids.get ⟨sel % article_ids.length,
      Nat.mod_lt _ (Nat.pos_of_ne_zero h)⟩
    lookupA library.unread.articles id

/-- `Library::move_to_read`: remove the article stored under `article_id`
from the unread bucket and insert it into the read bucket under its own
`id` field; leave the library unchanged when the id is absent. -/
def move_to_read (library : Library) (article_id : String) : Library :=
  match lookupA library.unread.articles article_id with
  | some read_article =>
      { unread := ⟨removeA library.unread.articles article_id⟩,
        read := ⟨insertA library.read.articles read_article.id read_article⟩ }
  | none => library

/-- What one run of `Library::pick` leaves behind: the persisted library,
the `opened_count` it reports, and the articles it consumed in order. -/
structure PickResult : Type where
  library : Library
  openedCount : Nat
  picked : List Article
deriving Repr, DecidableEq

/-- The `for i in 0..quantity` loop of `Library::pick`: each iteration draws
a random unread article (the draw for iteration `i` supplied by `sel i`),
moves it to the read bucket (persisting the library), then attempts the
external open (its success supplied by `openOk` on the article's url),
counting only successful opens; an empty unread bucket stops the loop. -/
def pickLoop (sel : Nat → Nat) (openOk : String → Bool) :
    Nat → Nat → Library → PickResult
  | 0, _, library => ⟨library, 0, []⟩
  | quantity + 1, i, library =>
      match random_unread_article (sel i) library with
      | some article =>
          let library' := move_to_read library article.id
          let rest := pickLoop sel openOk quantity (i + 1) library'
          ⟨rest.library,
           (if openOk article.url then 1 else 0) + rest.openedCount,
           article :: rest.picked⟩
      | none => ⟨library, 0, []⟩

/-- `Library::pick`: run the loop `quantity.unwrap_or(1)` times starting from
the loaded library. -/
def pick (sel : Nat → Nat) (openOk : String → Bool) (quantity : Option Nat)
    (library : Library) : PickResult :=
  pickLoop sel openOk (quantity.getD 1) 0 library

/-- A response with no usable data: its `list` is missing or not an object.
This is the signal a caller can check; a successful fetch of zero articles
carries `list` as an (empty) object instead, so the two are distinguishable. -/
def noData (v : JValue) : Bool :=
  (asObject (jget v "list")).isNone

/-- Looking up a key of the list succeeds. -/
theorem lookupA_isSome_of_mem {β : Type} {l : List (String × β)} {k : String}
    (h : k ∈ keysA l) : ∃ v, lookupA l k = some v := by
  induction l with
  | nil => simp [keysA] at h
  | cons p rest ih =>
      by_cases hk : p.1 = k
      · exact ⟨p.2, by simp [lookupA, hk]⟩
      · have : k ∈ keysA rest := by
          simp [keysA] at h ⊢
          tauto
        rcases ih this with ⟨v, hv⟩
        exact ⟨v, by simp [lookupA, hk, hv]⟩

/-- A successful lookup returns an entry of the list. -/
theorem mem_of_lookupA_eq_some {β : Type} {l : List (String × β)} {k : String}
    {v : β} (h : lookupA l k = some v) : (k, v) ∈ l := by
  induction l with
  | nil => simp [lookupA] at h
  | cons p rest ih =>
      obtain ⟨pk, pv⟩ := p
      by_cases hk : pk = k
      · simp [lookupA, hk] at h
        subst h
        subst hk
        exact List.mem_cons_self _ _
      · simp [lookupA, hk] at h
        exact List.mem_cons_of_mem _ (ih h)

/-- Removal yields a sublist. -/
theorem removeA_sublist {β : Type} (l : List (String × β)) (k : String) :
    (removeA l k).Sublist l := by
  induction l with
  | nil => simp [removeA]
  | cons p rest ih =>
      by_cases hk : p.1 = k
      · simp [removeA, hk]
      · simpa [removeA, hk] using ih.cons₂ p

/-- Removing a present key shortens the list by one. -/
theorem length_removeA_of_mem {β : Type} {l : List (String × β)} {k : String}
    (h : k ∈ keysA l) : (removeA l k).length + 1 = l.length := by
  induction l with
  | nil => simp [keysA] at h
  | cons p rest ih =>
      by_cases hk : p.1 = k
      · simp [removeA, hk]
      · have : k ∈ keysA rest := by
          simp [keysA] at h ⊢
          tauto
        simp [removeA, hk, ih this]

/-- With duplicate-free keys, a removed key is gone from the key list. -/
theorem not_mem_keysA_removeA {β : Type} {l : List (String × β)} {k : String}
    (h : (keysA l).Nodup) : k ∉ keysA (removeA l k) := by
  induction l with
  | nil => simp [removeA, keysA]
  | cons p rest ih =>
      simp [keysA] at h
      by_cases hk : p.1 = k
      · subst hk
        simpa [removeA, keysA] using h.1
      · have := ih h.2
        simp [removeA, hk, keysA] at this ⊢
        exact ⟨fun e => hk e.symm, this⟩

/-- The key list of an insertion. -/
theorem mem_keysA_insertA {β : Type} {l : List (String × β)} {k k' : String}
    {v : β} : k' ∈ keysA (insertA l k v) ↔ k' ∈ keysA l ∨ k' = k := by
  induction l with
  | nil => simp [insertA, keysA]
  | cons p rest ih =>
      by_cases hk : p.1 = k
      · subst hk
        simp [insertA, keysA]
        tauto
      · simp [insertA, hk, keysA] at ih ⊢
        tauto

/-- Inserting an absent key lengthens the list by one. -/
theorem length_insertA_of_not_mem {β : Type} {l : List (String × β)}
    {k : String} (v : β) (h : k ∉ keysA l) :
    (insertA l k v).length = l.length + 1 := by
  induction l with
  | nil => simp [insertA]
  | cons p rest ih =>
      simp [keysA] at h
      push_neg at h
      simp [insertA, Ne.symm h.1, ih (by simpa [keysA] using h.2)]

/-- C1 counterexample: for an input of 250 articles, `API::archive_async`
issues one remote call, not three, and that single request's actions array
holds all 250 items, over the claimed 100-item chunk ceiling. -/
theorem claim1_single_unchunked_request_for_250 :
    (archiveRequests (List.replicate 250 (⟨"1", "", ""⟩ : Article))).length ≠ 3 ∧
    ∃ req ∈ archiveRequests (List.replicate 250 (⟨"1", "", ""⟩ : Article)),
      100 < req.length := by
  refine ⟨?_, ?_⟩
  · rw [show (archiveRequests (List.replicate 250 (⟨"1", "", ""⟩ : Article))).length
        = 1 from rfl]
    decide
  · refine ⟨archiveActions (List.replicate 250 (⟨"1", "", ""⟩ : Article)),
      List.mem_singleton.mpr rfl, ?_⟩
    rw [archiveActions, List.length_map, List.length_replicate]
    decide

/-- C1 as amended: `API::archive_async` never splits its input: for every
input list of articles it issues exactly one remote request, and that
request's actions array has one entry per input article. -/
theorem claim1_archive_issues_one_request (articles : List Article) :
    (archiveRequests articles).length = 1 ∧
    ∀ req ∈ archiveRequests articles, req.length = articles.length := by
  refine ⟨rfl, ?_⟩
  intro req hreq
  simp only [archiveRequests, List.mem_singleton] at hreq
  subst hreq
  simp [archiveActions]

/-- C1 witness: the amended statement evaluated at the 250-article input. -/
theorem claim1_archive_one_request_witness :
    (archiveRequests (List.replicate 250 (⟨"1", "", ""⟩ : Article))).length = 1 :=
  (claim1_archive_issues_one_request
    (List.replicate 250 (⟨"1", "", ""⟩ : Article))).1

/-- C2: when the remote fetch errs, or its `Ok` response string is not valid
JSON, `Library::renew` aborts before `write_inventory`: the persisted library
is exactly the one loaded at the start of the cycle and no write occurs. -/
theorem claim2_renew_abort_leaves_library (library : Library) (msg : String) :
    (renew library (FetchOutcome.err msg)).library = library ∧
    (renew library (FetchOutcome.err msg)).wrote = false ∧
    (renew library FetchOutcome.badJson).library = library ∧
    (renew library FetchOutcome.badJson).wrote = false :=
  ⟨rfl, rfl, rfl, rfl⟩

/-- A value passing `is_null` is the null value. -/
theorem eq_null_of_isNull {v : JValue} (h : isNull v = true) : v = JValue.null := by
  cases v <;> simp [isNull] at h ⊢

/-- The fetch aborts at a null first page. -/
theorem retrieveAsync_of_null (pages : Nat → JValue)
    (h : isNull (pages 0) = true) :
    retrieveAsync pages = (JValue.null, [0]) := by
  simp [retrieveAsync, h]

/-- The fetch aborts when the first page has no `list` object. -/
theorem retrieveAsync_of_no_list (pages : Nat → JValue)
    (h0 : isNull (pages 0) = false)
    (h : asObject (jget (pages 0) "list") = none) :
    retrieveAsync pages = (pages 0, [0]) := by
  simp [retrieveAsync, h0, h]

/-- The fetch stops after a first page shorter than `PAGE_SIZE`. -/
theorem retrieveAsync_of_short_first_page (pages : Nat → JValue)
    {items : List (String × JValue)}
    (h0 : isNull (pages 0) = false)
    (h : asObject (jget (pages 0) "list") = some items)
    (hshort : items.length < PAGE_SIZE) :
    retrieveAsync pages = (pages 0, [0]) := by
  simp only [retrieveAsync, h0, h, Bool.false_eq_true, if_false]
  rw [if_pos (Or.inr hshort)]

/-- C3: when the first page cannot be parsed (a null page result) or lacks a
`list` object, the whole fetch stops at that single request and its result
carries the `noData` signal, while a successful fetch whose first page holds
a `list` with zero articles does not carry it. -/
theorem claim3_first_page_failure_aborts (pages : Nat → JValue)
    (h : asObject (jget (pages 0) "list") = none) :
    (retrieveAsync pages).2 = [0] ∧
    noData (retrieveAsync pages).1 = true ∧
    (∀ pages' : Nat → JValue,
      isNull (pages' 0) = false →
      asObject (jget (pages' 0) "list") = some [] →
      noData (retrieveAsync pages').1 = false) := by
  refine ⟨?_, ?_, ?_⟩
  · cases hnull : isNull (pages 0)
    · rw [retrieveAsync_of_no_list pages hnull h]
    · rw [retrieveAsync_of_null pages hnull]
  · cases hnull : isNull (pages 0)
    · rw [retrieveAsync_of_no_list pages hnull h]
      simp [noData, h]
    · rw [retrieveAsync_of_null pages hnull]
      simp [noData, jget, asObject]
  · intro pages' h0 h'
    rw [retrieveAsync_of_short_first_page pages' h0 h'
      (by simp [PAGE_SIZE])]
    simp [noData, h']

/-- C3 witness: a constant transport failure (every page null) stops after
the first request. -/
theorem claim3_first_page_failure_witness :
    (retrieveAsync (fun _ => JValue.null)).2 = [0] :=
  (claim3_first_page_failure_aborts (fun _ => JValue.null) rfl).1

/-- C5: a first page whose `list` holds fewer than `PAGE_SIZE` items is the
complete result — the fetch returns that page as-is, issues no request beyond
offset 0, and its outcome is unchanged under any reinterpretation of the
remaining pages (any oracle agreeing on the first page). -/
theorem claim5_short_first_page_is_complete (pages : Nat → JValue)
    (items : List (String × JValue))
    (h0 : isNull (pages 0) = false)
    (h : asObject (jget (pages 0) "list") = some items)
    (hshort : items.length < PAGE_SIZE) :
    retrieveAsync pages = (pages 0, [0]) ∧
    ∀ pages' : Nat → JValue, pages' 0 = pages 0 →
      retrieveAsync pages' = retrieveAsync pages := by
  have h1 := retrieveAsync_of_short_first_page pages h0 h hshort
  refine ⟨h1, fun pages' he => ?_⟩
  rw [retrieveAsync_of_short_first_page pages'
    (by rw [he]; exact h0) (by rw [he]; exact h) hshort, h1, he]

/-- C5 witness: a one-item first page is returned whole even though the
oracle's later pages are non-empty. -/
theorem claim5_short_first_page_witness :
    retrieveAsync (fun o => if o = 0
        then JValue.obj [("list", JValue.obj [("a", JValue.null)])]
        else JValue.obj [("list", JValue.obj [("b", JValue.null)])]) =
      (JValue.obj [("list", JValue.obj [("a", JValue.null)])], [0]) :=
  (claim5_short_first_page_is_complete
    (fun o => if o = 0
        then JValue.obj [("list", JValue.obj [("a", JValue.null)])]
        else JValue.obj [("list", JValue.obj [("b", JValue.null)])])
    [("a", JValue.null)] rfl rfl (by simp [PAGE_SIZE])).1

/-- C4 counterexample: a payload whose `resolved_title` is absent and whose
`given_title` is the empty string yields an empty title (the claim says the
title is never empty), and a payload whose `resolved_title` is present but
empty falls through to `given_title` (the claim says a present resolved
title is used). -/
theorem claim4_empty_and_skipped_title_counterexample :
    (transformArticle "1"
      (JValue.obj [("given_title", JValue.str "")])).title = "" ∧
    (transformArticle "2"
      (JValue.obj [("resolved_title", JValue.str ""),
                   ("given_title", JValue.str "g")])).title = "g" :=
  ⟨rfl, rfl⟩

/-- C4 as amended: the title is the resolved title when present and
non-empty; otherwise it is the given title when present (even when that
given title is empty), else the literal "Untitled"; the result is empty
exactly when the fallback lands on an empty given title. -/
theorem claim4_title_fallback_characterization (id : String) (data : JValue) :
    (∀ t, asStr (jget data "resolved_title") = some t → t ≠ "" →
      (transformArticle id data).title = t) ∧
    ((asStr (jget data "resolved_title") = none ∨
      asStr (jget data "resolved_title") = some "") →
      (transformArticle id data).title =
        (asStr (jget data "given_title")).getD "Untitled") ∧
    ((transformArticle id data).title = "" ↔
      ((asStr (jget data "resolved_title") = none ∨
        asStr (jget data "resolved_title") = some "") ∧
       asStr (jget data "given_title") = some "")) := by
  rcases hr : asStr (jget data "resolved_title") with _ | t
  · have ht : (transformArticle id data).title =
        (asStr (jget data "given_title")).getD "Untitled" := by
      simp [transformArticle, hr]
    refine ⟨by simp [hr], fun _ => ht, ?_⟩
    rw [ht]
    rcases hg : asStr (jget data "given_title") with _ | g
    · simp only [Option.getD_none, hg]
      constructor
      · intro h
        exact absurd h (by decide)
      · rintro ⟨_, h⟩
        cases h
    · simp [hg]
  · by_cases hne : t = ""
    · subst hne
      have ht : (transformArticle id data).title =
          (asStr (jget data "given_title")).getD "Untitled" := by
        simp [transformArticle, hr]
      refine ⟨?_, fun _ => ht, ?_⟩
      · intro t' ht' hne'
        obtain rfl : t' = "" := by simpa using ht'.symm
        exact absurd rfl hne'
      · rw [ht]
        rcases hg : asStr (jget data "given_title") with _ | g
        · simp only [Option.getD_none, hg]
          constructor
          · intro h
            exact absurd h (by decide)
          · rintro ⟨_, h⟩
            cases h
        · simp [hr, hg]
    · have ht : (transformArticle id data).title = t := by
        simp [transformArticle, hr, hne]
      refine ⟨?_, ?_, ?_⟩
      · intro t' ht' hne'
        obtain rfl : t' = t := by simpa using ht'.symm
        exact ht
      · intro hcase
        rcases hcase with hc | hc
        · cases hc
        · exact absurd (by simpa using hc) hne
      · rw [ht]
        constructor
        · intro h
          exact absurd h hne
        · rintro ⟨hc | hc, _⟩
          · cases hc
          · exact absurd (by simpa using hc) hne

/-- C4 witness: a present non-empty resolved title is used as-is. -/
theorem claim4_title_fallback_witness :
    (transformArticle "1"
      (JValue.obj [("resolved_title", JValue.str "R")])).title = "R" :=
  (claim4_title_fallback_characterization "1"
      (JValue.obj [("resolved_title", JValue.str "R")])).1 "R" rfl (by decide)

/-- C6: when the fetch succeeds with a response whose `list` is an object,
renew persists a brand-new library: the write happens, the read bucket is
empty, the unread bucket is exactly the transformed fetched payloads, and
every id of the new unread bucket comes from the fetch (so nothing of the
previous unread bucket survives unless the fetch returned it). -/
theorem claim6_renew_replaces_with_fetched_set (library : Library) (v : JValue)
    (entries : List (String × JValue))
    (h : asObject (jget v "list") = some entries) :
    (renew library (FetchOutcome.parsed v)).wrote = true ∧
    (renew library (FetchOutcome.parsed v)).library.read.articles = [] ∧
    (renew library (FetchOutcome.parsed v)).library.unread.articles =
      entries.map (fun p => (p.1, transformArticle p.1 p.2)) ∧
    ∀ q ∈ keysA (renew library (FetchOutcome.parsed v)).library.unread.articles,
      q ∈ keysA entries := by
  refine ⟨by simp [renew, h], by simp [renew, h], by simp [renew, h], ?_⟩
  intro q hq
  simp only [renew, h, keysA, List.map_map] at hq
  simpa [keysA] using hq

/-- C6 witness: a concrete renew cycle over a library holding one read and
one unread article, with a one-article fetch. -/
theorem claim6_renew_replaces_witness :
    (renew
      (⟨⟨[("x", ⟨"x", "ux", "tx"⟩)]⟩, ⟨[("y", ⟨"y", "uy", "ty"⟩)]⟩⟩ : Library)
      (FetchOutcome.parsed (JValue.obj [("list", JValue.obj
        [("7", JValue.obj [("given_url", JValue.str "u7")])])]))).library.read.articles
      = [] :=
  (claim6_renew_replaces_with_fetched_set
    (⟨⟨[("x", ⟨"x", "ux", "tx"⟩)]⟩, ⟨[("y", ⟨"y", "uy", "ty"⟩)]⟩⟩ : Library)
    (JValue.obj [("list", JValue.obj
      [("7", JValue.obj [("given_url", JValue.str "u7")])])])
    [("7", JValue.obj [("given_url", JValue.str "u7")])] rfl).2.1

/-- Keys after folding one page's items into the accumulated map. -/
theorem mem_keysA_foldl_insertA {k : String}
    (items : List (String × JValue)) (acc : List (String × JValue)) :
    (k ∈ keysA (items.foldl (fun m p => insertA m p.1 p.2) acc)) ↔
      k ∈ keysA acc ∨ k ∈ keysA items := by
  induction items generalizing acc with
  | nil => simp [keysA]
  | cons x xs ih =>
      simp only [List.foldl_cons]
      rw [ih, show (k ∈ keysA (insertA acc x.1 x.2)) ↔ _ from mem_keysA_insertA]
      simp only [keysA, List.map_cons, List.mem_cons]
      tauto

/-- The merged key set of a batch whose every page carries a non-empty
`list` object: the accumulator's keys plus every page's item keys. -/
theorem mem_keysA_mergeBatch_of_good {k : String}
    (pgs : List JValue) (acc : List (String × JValue))
    (hgood : ∀ p ∈ pgs, ∃ its, asObject (jget p "list") = some its ∧ its ≠ []) :
    (k ∈ keysA (mergeBatch acc pgs).1 ↔
      k ∈ keysA acc ∨ ∃ p ∈ pgs, ∃ its,
        asObject (jget p "list") = some its ∧ k ∈ keysA its) := by
  induction pgs generalizing acc with
  | nil => simp [mergeBatch]
  | cons p rest ih =>
      rcases hgood p (List.mem_cons_self _ _) with ⟨its, hits, hne⟩
      have hstep : mergeBatch acc (p :: rest) =
          mergeBatch (its.foldl (fun m q => insertA m q.1 q.2) acc) rest := by
        simp [mergeBatch, hits, hne]
      rw [hstep, ih _ (fun q hq => hgood q (List.mem_cons_of_mem _ hq)),
        mem_keysA_foldl_insertA]
      constructor
      · rintro ((hacc | hin) | ⟨q, hq, w, hw, hkw⟩)
        · exact Or.inl hacc
        · exact Or.inr ⟨p, List.mem_cons_self _ _, its, hits, hin⟩
        · exact Or.inr ⟨q, List.mem_cons_of_mem _ hq, w, hw, hkw⟩
      · rintro (hacc | ⟨q, hq, w, hw, hkw⟩)
        · exact Or.inl (Or.inl hacc)
        · rcases List.mem_cons.mp hq with rfl | hq'
          · obtain rfl : its = w := by
              rw [hits] at hw
              exact Option.some.inj hw
            exact Or.inl (Or.inr hkw)
          · exact Or.inr ⟨q, hq', w, hw, hkw⟩

/-- C8 counterexample: the same two pages of one batch, merged in the two
orders. When the empty page is processed first the merge loop breaks before
the non-empty page, so the merged id-set depends on the order. -/
theorem claim8_empty_page_order_counterexample :
    ("a" ∈ keysA (mergeBatch []
        [JValue.obj [("list", JValue.obj [("a", JValue.null)])],
         JValue.obj [("list", JValue.obj [])]]).1) ∧
    ("a" ∉ keysA (mergeBatch []
        [JValue.obj [("list", JValue.obj [])],
         JValue.obj [("list", JValue.obj [("a", JValue.null)])]]).1) := by
  decide

/-- C8 as amended: when every page of the batch yields a non-empty `list`
object, the merged id-set is the same for any reordering of the batch's
pages; with an empty or unparseable page in the batch, the loop stops at
that page and the merged id-set can depend on the order. -/
theorem claim8_merge_order_invariant_for_nonempty_pages
    (acc : List (String × JValue)) (pgs pgs' : List JValue)
    (hgood : ∀ p ∈ pgs, ∃ its, asObject (jget p "list") = some its ∧ its ≠ [])
    (hperm : pgs.Perm pgs') :
    ∀ k, k ∈ keysA (mergeBatch acc pgs).1 ↔
      k ∈ keysA (mergeBatch acc pgs').1 := by
  intro k
  have hgood' : ∀ p ∈ pgs', ∃ its,
      asObject (jget p "list") = some its ∧ its ≠ [] :=
    fun p hp => hgood p (hperm.mem_iff.mpr hp)
  rw [mem_keysA_mergeBatch_of_good pgs acc hgood,
      mem_keysA_mergeBatch_of_good pgs' acc hgood']
  constructor
  · rintro (h | ⟨p, hp, w, hw, hkw⟩)
    · exact Or.inl h
    · exact Or.inr ⟨p, hperm.mem_iff.mp hp, w, hw, hkw⟩
  · rintro (h | ⟨p, hp, w, hw, hkw⟩)
    · exact Or.inl h
    · exact Or.inr ⟨p, hperm.mem_iff.mpr hp, w, hw, hkw⟩

/-- C8 witness: two non-empty pages swapped give the same merged id-set. -/
theorem claim8_merge_order_witness :
    ("a" ∈ keysA (mergeBatch []
        [JValue.obj [("list", JValue.obj [("a", JValue.null)])],
         JValue.obj [("list", JValue.obj [("b", JValue.null)])]]).1 ↔
     "a" ∈ keysA (mergeBatch []
        [JValue.obj [("list", JValue.obj [("b", JValue.null)])],
         JValue.obj [("list", JValue.obj [("a", JValue.null)])]]).1) :=
  claim8_merge_order_invariant_for_nonempty_pages []
    [JValue.obj [("list", JValue.obj [("a", JValue.null)])],
     JValue.obj [("list", JValue.obj [("b", JValue.null)])]]
    [JValue.obj [("list", JValue.obj [("b", JValue.null)])],
     JValue.obj [("list", JValue.obj [("a", JValue.null)])]]
    (by
      intro p hp
      rcases List.mem_cons.mp hp with rfl | hp'
      · exact ⟨[("a", JValue.null)], rfl, by simp⟩
      rcases List.mem_cons.mp hp' with rfl | hp''
      · exact ⟨[("b", JValue.null)], rfl, by simp⟩
      · cases hp'')
    (List.Perm.swap _ _ _) "a"

/-- The offset counter after one inner-loop pass advances by one page size
per issued request. -/
theorem batchEnd_eq_add (k offset : Nat) :
    batchEnd k offset = offset + PAGE_SIZE * (batchOffsets k offset).length := by
  induction k generalizing offset with
  | zero => simp [batchEnd, batchOffsets]
  | succ k ih =>
      by_cases h : offset + PAGE_SIZE > PAGE_SIZE * 50
      · simp [batchEnd, batchOffsets, h]
      · simp only [batchEnd, batchOffsets, h, if_neg, ite_false, List.length_cons,
          ih (offset + PAGE_SIZE)]
        ring
  
/-- The offset counter never passes the ceiling by more than one page. -/
theorem batchEnd_le (k offset : Nat) (h : offset ≤ PAGE_SIZE * 50) :
    batchEnd k offset ≤ PAGE_SIZE * 50 + PAGE_SIZE := by
  induction k generalizing offset with
  | zero =>
      simp only [batchEnd]
      omega
  | succ k ih =>
      by_cases hb : offset + PAGE_SIZE > PAGE_SIZE * 50
      · simp only [batchEnd, hb, ite_true]
        omega
      · simp only [batchEnd, hb, ite_false]
        exact ih _ (by omega)

/-- Every requested offset of one inner-loop pass stays within the ceiling. -/
theorem batchOffsets_mem_le (k : Nat) :
    ∀ offset : Nat, offset ≤ PAGE_SIZE * 50 →
      ∀ o ∈ batchOffsets k offset, o ≤ PAGE_SIZE * 50 := by
  induction k with
  | zero =>
      intro offset _ o ho
      simp [batchOffsets] at ho
  | succ k ih =>
      intro offset h o ho
      by_cases hb : offset + PAGE_SIZE > PAGE_SIZE * 50
      · simp only [batchOffsets, hb, ite_true, List.mem_singleton] at ho
        subst ho
        exact h
      · simp only [batchOffsets, hb, ite_false, List.mem_cons] at ho
        rcases ho with rfl | ho'
        · exact h
        · exact ih _ (by omega) o ho'

/-- An inner-loop pass with at least one iteration issues a request. -/
theorem batchOffsets_length_pos (k offset : Nat) :
    0 < (batchOffsets (k + 1) offset).length := by
  by_cases hb : offset + PAGE_SIZE > PAGE_SIZE * 50 <;>
    simp [batchOffsets, hb]

/-- The pagination loop stops with just its first batch when that batch
contains an empty/unparseable page. -/
theorem paginationLoop_stop (pages : Nat → JValue) (offset : Nat)
    (acc : List (String × JValue))
    (h : (mergeBatch acc
      ((batchOffsets MAX_CONCURRENT_REQUESTS offset).map pages)).2 = true) :
    paginationLoop pages offset acc =
      ((mergeBatch acc
          ((batchOffsets MAX_CONCURRENT_REQUESTS offset).map pages)).1,
       batchOffsets MAX_CONCURRENT_REQUESTS offset) := by
  rw [paginationLoop]
  simp [h]

/-- The pagination loop's request budget: below the ceiling, the requested
offsets weigh at most one page past the ceiling and each stays within it. -/
theorem paginationLoop_requests_bound (pages : Nat → JValue) :
    ∀ (fuel offset : Nat) (acc : List (String × JValue)),
      PAGE_SIZE * 50 + 1 - offset ≤ fuel →
      offset ≤ PAGE_SIZE * 50 →
      PAGE_SIZE * ((paginationLoop pages offset acc).2).length + offset ≤
          PAGE_SIZE * 50 + PAGE_SIZE ∧
      ∀ o ∈ (paginationLoop pages offset acc).2, o ≤ PAGE_SIZE * 50 := by
  intro fuel
  induction fuel with
  | zero =>
      intro offset acc hf ho
      exfalso
      simp [PAGE_SIZE] at hf ho
      omega
  | succ fuel ih =>
      intro offset acc hf ho
      rw [paginationLoop]
      by_cases hstop :
          (mergeBatch acc
            ((batchOffsets MAX_CONCURRENT_REQUESTS offset).map pages)).2 = true
      · simp only [hstop, ite_true]
        refine ⟨?_, batchOffsets_mem_le _ _ ho⟩
        have he := batchEnd_eq_add MAX_CONCURRENT_REQUESTS offset
        have hle := batchEnd_le MAX_CONCURRENT_REQUESTS offset ho
        omega
      · simp only [hstop, ite_false, Bool.not_eq_true] at *
        by_cases hceil :
            batchEnd MAX_CONCURRENT_REQUESTS offset > PAGE_SIZE * 50
        · simp only [hstop, hceil, ite_true, ite_false, Bool.false_eq_true]
          refine ⟨?_, batchOffsets_mem_le _ _ ho⟩
          have he := batchEnd_eq_add MAX_CONCURRENT_REQUESTS offset
          have hle := batchEnd_le MAX_CONCURRENT_REQUESTS offset ho
          omega
        · simp only [hstop, hceil, ite_false, Bool.false_eq_true]
          have he := batchEnd_eq_add MAX_CONCURRENT_REQUESTS offset
          have hpos := batchOffsets_length_pos (MAX_CONCURRENT_REQUESTS - 1) offset
          have hpos' : 0 < (batchOffsets MAX_CONCURRENT_REQUESTS offset).length := by
        
            simpa [MAX_CONCURRENT_REQUESTS] using hpos
          have hrec := ih (batchEnd MAX_CONCURRENT_REQUESTS offset)
            (mergeBatch acc
              ((batchOffsets MAX_CONCURRENT_REQUESTS offset).map pages)).1
            (by simp only [PAGE_SIZE] at *; omega)
            (by omega)
          refine ⟨?_, ?_⟩
          · simp only [List.length_append]
            simp only [PAGE_SIZE] at *
            omega
          · intro o hoo
            rcases List.mem_append.mp hoo with hmem | hmem
            · exact batchOffsets_mem_le _ _ ho o hmem
            · exact hrec.2 o hmem

/-- C9: pagination terminates with a hard request budget: whatever the
server returns, a fetch issues at most 51 page requests (the first page plus
at most `PAGE_SIZE * 50 / PAGE_SIZE` = 50 loop pages), every requested
offset stays within the `PAGE_SIZE * 50` ceiling, and a batch containing an
empty/unparseable page is the loop's last. -/
theorem claim9_pagination_request_bound (pages : Nat → JValue) :
    ((retrieveAsync pages).2).length ≤ 51 ∧
    (∀ o ∈ (retrieveAsync pages).2, o ≤ PAGE_SIZE * 50) ∧
    (∀ (offset : Nat) (acc : List (String × JValue)),
      (mergeBatch acc
        ((batchOffsets MAX_CONCURRENT_REQUESTS offset).map pages)).2 = true →
      (paginationLoop pages offset acc).2 =
        batchOffsets MAX_CONCURRENT_REQUESTS offset) := by
  have habort : ∀ res : JValue, retrieveAsync pages = (res, [0]) →
      ((retrieveAsync pages).2).length ≤ 51 ∧
      ∀ o ∈ (retrieveAsync pages).2, o ≤ PAGE_SIZE * 50 := by
    intro res hres
    rw [hres]
    refine ⟨by simp, ?_⟩
    intro o ho
    simp only [List.mem_singleton] at ho
    subst ho
    simp [PAGE_SIZE]
  have hmain : ((retrieveAsync pages).2).length ≤ 51 ∧
      ∀ o ∈ (retrieveAsync pages).2, o ≤ PAGE_SIZE * 50 := by
    by_cases h0 : isNull (pages 0) = true
    · exact habort _ (retrieveAsync_of_null pages h0)
    · replace h0 : isNull (pages 0) = false := by
        simpa using h0
      rcases hobj : asObject (jget (pages 0) "list") with _ | items
      · exact habort _ (retrieveAsync_of_no_list pages h0 hobj)
      · by_cases hshort : items.length = 0 ∨ items.length < PAGE_SIZE
        · have hlt : items.length < PAGE_SIZE := by
            rcases hshort with hz | hlt
            · rw [hz]
              simp [PAGE_SIZE]
            · exact hlt
          exact habort _ (retrieveAsync_of_short_first_page pages h0 hobj hlt)
        · have hres : retrieveAsync pages =
              (JValue.obj [("status", JValue.num 1),
                ("list", JValue.obj (paginationLoop pages PAGE_SIZE items).1)],
               0 :: (paginationLoop pages PAGE_SIZE items).2) := by
            simp only [retrieveAsync, h0, hobj, Bool.false_eq_true, if_false]
            rw [if_neg hshort]
          rw [hres]
          have hb := paginationLoop_requests_bound pages (PAGE_SIZE * 50 + 1)
            PAGE_SIZE items (by simp [PAGE_SIZE]) (by simp [PAGE_SIZE])
          refine ⟨?_, ?_⟩
          · simp only [List.length_cons]
            have h1 := hb.1
            simp only [PAGE_SIZE] at h1 ⊢
            omega
          · intro o ho
            rcases List.mem_cons.mp ho with rfl | ho'
            · simp [PAGE_SIZE]
            · exact hb.2 o ho'
  exact ⟨hmain.1, hmain.2,
    fun offset acc h => by rw [paginationLoop_stop pages offset acc h]⟩

/-- C9 witness: under a constantly failing oracle the loop stops with its
first batch of requests. -/
theorem claim9_pagination_bound_witness :
    (paginationLoop (fun _ => JValue.null) PAGE_SIZE []).2 =
      batchOffsets MAX_CONCURRENT_REQUESTS PAGE_SIZE :=
  (claim9_pagination_request_bound (fun _ => JValue.null)).2.2 PAGE_SIZE [] rfl

/-- With well-formed unread entries (each stored under its own id) and a
non-empty unread bucket, the random draw returns an article of the bucket,
stored under its own id. -/
theorem random_unread_article_spec (sel : Nat) (library : Library)
    (hwf : ∀ p ∈ library.unread.articles, p.2.id = p.1)
    (h : library.unread.articles.length ≠ 0) :
    ∃ a, random_unread_article sel library = some a ∧
      a.id ∈ keysA library.unread.articles ∧
      lookupA library.unread.articles a.id = some a := by
  unfold random_unread_article
  have hklen : ¬((keysA library.unread.articles).length = 0) := by
    simpa [keysA] using h
  rw [dif_neg hklen]
  have hmem : (keysA library.unread.articles).get
      ⟨sel % (keysA library.unread.articles).length,
        Nat.mod_lt _ (Nat.pos_of_ne_zero hklen)⟩ ∈
      keysA library.unread.articles :=
    List.get_mem _ _ _
  rcases lookupA_isSome_of_mem hmem with ⟨a, ha⟩
  have haid : a.id = (keysA library.unread.articles).get
      ⟨sel % (keysA library.unread.articles).length,
        Nat.mod_lt _ (Nat.pos_of_ne_zero hklen)⟩ :=
    hwf _ (mem_of_lookupA_eq_some ha)
  refine ⟨a, ha, ?_, ?_⟩
  · rw [haid]
    exact hmem
  · rw [haid]
    exact ha

/-- Whenever the random draw returns an article, that article is stored in
the unread bucket under its own id (given well-formed entries). -/
theorem random_unread_article_some (sel : Nat) (library : Library) {a : Article}
    (hwf : ∀ p ∈ library.unread.articles, p.2.id = p.1)
    (h : random_unread_article sel library = some a) :
    a.id ∈ keysA library.unread.articles ∧
    lookupA library.unread.articles a.id = some a := by
  have hlen : library.unread.articles.length ≠ 0 := by
    intro h0
    rw [random_unread_article, dif_pos (by simpa [keysA] using h0)] at h
    cases h
  rcases random_unread_article_spec sel library hwf hlen with ⟨b, hb, hbm, hbl⟩
  rw [h] at hb
  obtain rfl := Option.some.inj hb
  exact ⟨hbm, hbl⟩

/-- Unfolding of `move_to_read` at an id stored in the unread bucket. -/
theorem move_to_read_spec (library : Library) (a : Article)
    (ha : lookupA library.unread.articles a.id = some a) :
    move_to_read library a.id =
      { unread := ⟨removeA library.unread.articles a.id⟩,
        read := ⟨insertA library.read.articles a.id a⟩ } := by
  unfold move_to_read
  rw [ha]

/-- Specification of the pick loop under the library invariants (entries
stored under their own ids, duplicate-free unread keys, disjoint buckets)
and a sufficient unread supply: each iteration consumes exactly one distinct
article of the initial unread bucket. -/
theorem pickLoop_spec (sel : Nat → Nat) (openOk : String → Bool) :
    ∀ (q i : Nat) (library : Library),
      (∀ p ∈ library.unread.articles, p.2.id = p.1) →
      (keysA library.unread.articles).Nodup →
      (∀ k ∈ keysA library.unread.articles,
        k ∉ keysA library.read.articles) →
      q ≤ library.unread.articles.length →
      (pickLoop sel openOk q i library).library.unread.articles.length + q =
          library.unread.articles.length ∧
      (pickLoop sel openOk q i library).library.read.articles.length =
          library.read.articles.length + q ∧
      (pickLoop sel openOk q i library).picked.length = q ∧
      ((pickLoop sel openOk q i library).picked.map Article.id).Nodup ∧
      (∀ a ∈ (pickLoop sel openOk q i library).picked,
        a.id ∈ keysA library.unread.articles) := by
  intro q
  induction q with
  | zero =>
      intro i library _ _ _ _
      simp [pickLoop]
  | succ q ih =>
      intro i library hwf hnodup hdisj hq
      have hlen0 : library.unread.articles.length ≠ 0 := by omega
      rcases random_unread_article_spec (sel i) library hwf hlen0 with
        ⟨a, hrand, hmem, hlook⟩
      have hmove := move_to_read_spec library a hlook
      have hwf' : ∀ p ∈ removeA library.unread.articles a.id, p.2.id = p.1 :=
        fun p hp => hwf p ((removeA_sublist _ _).subset hp)
      have hkeysub : (keysA (removeA library.unread.articles a.id)).Sublist
          (keysA library.unread.articles) :=
        (removeA_sublist _ _).map _
      have hnodup' : (keysA (removeA library.unread.articles a.id)).Nodup :=
        hnodup.sublist hkeysub
      have hnotmem : a.id ∉ keysA (removeA library.unread.articles a.id) :=
        not_mem_keysA_removeA hnodup
      have hdisj' : ∀ k ∈ keysA (removeA library.unread.articles a.id),
          k ∉ keysA (insertA library.read.articles a.id a) := by
        intro k hk hcontra
        have hkin : k ∈ keysA library.unread.articles := hkeysub.subset hk
        rcases mem_keysA_insertA.mp hcontra with h' | h'
        · exact hdisj k hkin h'
        · exact hnotmem (h' ▸ hk)
      have hlen' : (removeA library.unread.articles a.id).length + 1 =
          library.unread.articles.length := length_removeA_of_mem hmem
      have hreadlen : (insertA library.read.articles a.id a).length =
          library.read.articles.length + 1 :=
        length_insertA_of_not_mem a (hdisj a.id hmem)
      obtain ⟨ih1, ih2, ih3, ih4, ih5⟩ :=
        ih (i + 1)
          { unread := ⟨removeA library.unread.articles a.id⟩,
            read := ⟨insertA library.read.articles a.id a⟩ }
          hwf' hnodup' hdisj' (by simpa using by omega)
      dsimp only at ih1 ih2 ih3 ih4 ih5
      simp only [pickLoop, hrand, hmove]
      refine ⟨?_, ?_, ?_, ?_, ?_⟩
      · dsimp only
        omega
      · dsimp only
        omega
      · simp [ih3]
      · simp only [List.map_cons, List.nodup_cons]
        refine ⟨?_, ih4⟩
        intro hmem'
        rcases List.mem_map.mp hmem' with ⟨b, hb, hbid⟩
        have hbin := ih5 b hb
        rw [hbid] at hbin
        exact hnotmem hbin
      · intro b hb
        rcases List.mem_cons.mp hb with rfl | hb'
        · exact hmem
        · exact hkeysub.subset (ih5 b hb')

/-- C7: under the library invariants (each unread entry stored under its own
id, duplicate-free unread keys, disjoint buckets), `pick(n)` with
`n ≤ |unread|` shrinks the unread bucket by exactly `n`, grows the read
bucket by exactly `n`, and never selects the same article id twice within
the one call. -/
theorem claim7_pick_moves_exactly_n (sel : Nat → Nat) (openOk : String → Bool)
    (n : Nat) (library : Library)
    (hwf : ∀ p ∈ library.unread.articles, p.2.id = p.1)
    (hnodup : (keysA library.unread.articles).Nodup)
    (hdisj : ∀ k ∈ keysA library.unread.articles,
      k ∉ keysA library.read.articles)
    (hn : n ≤ library.unread.articles.length) :
    (pick sel openOk (some n) library).library.unread.articles.length + n =
        library.unread.articles.length ∧
    (pick sel openOk (some n) library).library.read.articles.length =
        library.read.articles.length + n ∧
    ((pick sel openOk (some n) library).picked.map Article.id).Nodup := by
  obtain ⟨h1, h2, _, h4, _⟩ :=
    pickLoop_spec sel openOk n 0 library hwf hnodup hdisj hn
  exact ⟨h1, h2, h4⟩

/-- C7 witness: picking 2 of 2 unread articles empties the unread bucket. -/
theorem claim7_pick_moves_witness :
    (pick (fun _ => 0) (fun _ => true) (some 2)
      (⟨⟨[]⟩, ⟨[("a", ⟨"a", "ua", "ta"⟩), ("b", ⟨"b", "ub", "tb"⟩)]⟩⟩ :
        Library)).library.unread.articles.length + 2 = 2 :=
  (claim7_pick_moves_exactly_n (fun _ => 0) (fun _ => true) 2
    (⟨⟨[]⟩, ⟨[("a", ⟨"a", "ua", "ta"⟩), ("b", ⟨"b", "ub", "tb"⟩)]⟩⟩ : Library)
    (by decide) (by decide) (by decide) (by decide)).1

/-- The external open's outcome never changes the persisted library or the
consumed articles: the move and the save happen before the open is tried. -/
theorem pickLoop_openOk_state (sel : Nat → Nat) (o o' : String → Bool) :
    ∀ (q i : Nat) (library : Library),
      (pickLoop sel o q i library).library =
        (pickLoop sel o' q i library).library ∧
      (pickLoop sel o q i library).picked =
        (pickLoop sel o' q i library).picked := by
  intro q
  induction q with
  | zero => intro i library; exact ⟨rfl, rfl⟩
  | succ q ih =>
      intro i library
      simp only [pickLoop]
      rcases hrand : random_unread_article (sel i) library with _ | a
      · exact ⟨rfl, rfl⟩
      · obtain ⟨h1, h2⟩ := ih (i + 1) (move_to_read library a.id)
        simp [h1, h2]

/-- The reported count is exactly the number of picks whose open succeeded. -/
theorem pickLoop_openedCount (sel : Nat → Nat) (openOk : String → Bool) :
    ∀ (q i : Nat) (library : Library),
      (pickLoop sel openOk q i library).openedCount =
        ((pickLoop sel openOk q i library).picked.filter
          (fun a => openOk a.url)).length := by
  intro q
  induction q with
  | zero => intro i library; simp [pickLoop]
  | succ q ih =>
      intro i library
      simp only [pickLoop]
      rcases hrand : random_unread_article (sel i) library with _ | a
      · simp
      · dsimp only
        rw [ih (i + 1) (move_to_read library a.id), List.filter_cons]
        by_cases ho : openOk a.url <;> simp [ho, Nat.add_comm]

/-- A key of the read bucket stays in the read bucket through the loop. -/
theorem pickLoop_read_keys_mono (sel : Nat → Nat) (openOk : String → Bool) :
    ∀ (q i : Nat) (library : Library) (k : String),
      k ∈ keysA library.read.articles →
      k ∈ keysA (pickLoop sel openOk q i library).library.read.articles := by
  intro q
  induction q with
  | zero => intro i library k hk; simpa [pickLoop] using hk
  | succ q ih =>
      intro i library k hk
      simp only [pickLoop]
      rcases hrand : random_unread_article (sel i) library with _ | a
      · simpa using hk
      · dsimp only
        apply ih
        unfold move_to_read
        rcases hl : lookupA library.unread.articles a.id with _ | b
        · exact hk
        · exact mem_keysA_insertA.mpr (Or.inl hk)

/-- Every consumed article's id ends in the read bucket, whatever the open
outcomes (given unread entries stored under their own ids). -/
theorem pickLoop_picked_in_read (sel : Nat → Nat) (openOk : String → Bool) :
    ∀ (q i : Nat) (library : Library),
      (∀ p ∈ library.unread.articles, p.2.id = p.1) →
      ∀ a ∈ (pickLoop sel openOk q i library).picked,
        a.id ∈ keysA (pickLoop sel openOk q i library).library.read.articles := by
  intro q
  induction q with
  | zero => intro i library _ a ha; simp [pickLoop] at ha
  | succ q ih =>
      intro i library hwf a ha
      rcases hrand : random_unread_article (sel i) library with _ | b
      · rw [pickLoop, hrand] at ha
        simp at ha
      · obtain ⟨hbmem, hblook⟩ := random_unread_article_some (sel i) library hwf hrand
        have hmove := move_to_read_spec library b hblook
        have hwf' : ∀ p ∈ removeA library.unread.articles b.id, p.2.id = p.1 :=
          fun p hp => hwf p ((removeA_sublist _ _).subset hp)
        rw [pickLoop, hrand] at ha ⊢
        simp only [hmove] at ha ⊢
        rcases List.mem_cons.mp ha with rfl | ha'
        · apply pickLoop_read_keys_mono
          exact mem_keysA_insertA.mpr (Or.inr rfl)
        · exact ih (i + 1) _ hwf' a ha'

/-- C10: in every pick run (over a library whose unread entries are stored
under their own ids) each consumed article's id is in the read bucket of the
persisted library even when its open failed — the persisted library and the
consumed list do not depend on the open outcomes at all — and the reported
count is exactly the number of successful opens, hence at most the number
of articles consumed; with a failing opener it is strictly smaller. -/
theorem claim10_pick_counts_only_successful_opens (sel : Nat → Nat)
    (openOk : String → Bool) (quantity : Option Nat) (library : Library)
    (hwf : ∀ p ∈ library.unread.articles, p.2.id = p.1) :
    (∀ a ∈ (pick sel openOk quantity library).picked,
      a.id ∈ keysA (pick sel openOk quantity library).library.read.articles) ∧
    (pick sel openOk quantity library).openedCount =
      ((pick sel openOk quantity library).picked.filter
        (fun a => openOk a.url)).length ∧
    (pick sel openOk quantity library).openedCount ≤
      (pick sel openOk quantity library).picked.length ∧
    (∀ openOk' : String → Bool,
      (pick sel openOk' quantity library).library =
        (pick sel openOk quantity library).library ∧
      (pick sel openOk' quantity library).picked =
        (pick sel openOk quantity library).picked) ∧
    (pick (fun _ => 0) (fun _ => false) (some 1)
        (⟨⟨[]⟩, ⟨[("a", ⟨"a", "ua", "ta"⟩)]⟩⟩ : Library)).openedCount <
      (pick (fun _ => 0) (fun _ => false) (some 1)
        (⟨⟨[]⟩, ⟨[("a", ⟨"a", "ua", "ta"⟩)]⟩⟩ : Library)).picked.length := by
  refine ⟨pickLoop_picked_in_read sel openOk _ 0 library hwf,
    pickLoop_openedCount sel openOk _ 0 library, ?_,
    fun openOk' => pickLoop_openOk_state sel openOk' openOk _ 0 library, ?_⟩
  · rw [show (pick sel openOk quantity library).openedCount =
        ((pick sel openOk quantity library).picked.filter
          (fun a => openOk a.url)).length from
      pickLoop_openedCount sel openOk _ 0 library]
    exact List.length_filter_le _ _
  · decide

/-- C10 witness: with one unread article and a failing opener, the article
is consumed yet the reported count is the number of successful opens. -/
theorem claim10_pick_open_failure_witness :
    (pick (fun _ => 0) (fun _ => false) (some 1)
      (⟨⟨[]⟩, ⟨[("a", ⟨"a", "ua", "ta"⟩)]⟩⟩ : Library)).openedCount =
      ((pick (fun _ => 0) (fun _ => false) (some 1)
        (⟨⟨[]⟩, ⟨[("a", ⟨"a", "ua", "ta"⟩)]⟩⟩ : Library)).picked.filter
          (fun _ => false)).length :=
  (claim10_pick_counts_only_successful_opens (fun _ => 0) (fun _ => false)
    (some 1) (⟨⟨[]⟩, ⟨[("a", ⟨"a", "ua", "ta"⟩)]⟩⟩ : Library)
    (by decide)).2.1
